import Mathlib

/-!
Shallow embedding of the crop geometry in `src/crop_calc.py` and of the
conversion entry points in `src/nitro_to_crs_converter.py`, with theorems
checking the specification's statements about them.  Python floats are
modelled by real numbers, dictionaries of crop fields by a structure, and
the empty dictionary returned on failure by `Option.none`.
-/

namespace NitroCRS

/-- Model of the 2-D pixel-space point (class `Point` in `src/crop_calc.py`). -/
structure Point where
  x : ℝ
  y : ℝ

/-- Rotation of this point around `center` by angle `theta` in radians
(`Point.rotate` in `src/crop_calc.py`): translate to the center, apply the
rotation matrix, translate back. -/
noncomputable def Point.rotate (p : Point) (center : Point) (theta : ℝ) : Point :=
  { x := center.x + ((p.x - center.x) * Real.cos theta - (p.y - center.y) * Real.sin theta)
    y := center.y + ((p.x - center.x) * Real.sin theta + (p.y - center.y) * Real.cos theta) }

/-- Fields of a constructed crop rectangle (class `CropRect` in `src/crop_calc.py`). -/
structure CropRect where
  origin : Point
  width : ℝ
  height : ℝ
  rotation_degrees : ℝ
  orig_width : ℝ
  orig_height : ℝ

/-- Constructor `CropRect.__init__`: destructures the json array
`[[x1, y1], [w, h]]`; a component of the size pair equal to `0` is replaced by
the corresponding original dimension.  The remaining parameters carry Python
defaults `0.0`, `6960`, `4640` at call sites that omit them. -/
noncomputable def CropRect.ofJson (x1 y1 w h rotation_degrees orig_width orig_height : ℝ) :
    CropRect :=
  { origin := ⟨x1, y1⟩
    width := if w = 0 then orig_width else w
    height := if h = 0 then orig_height else h
    rotation_degrees := rotation_degrees
    orig_width := orig_width
    orig_height := orig_height }

/-- Center point of the crop rectangle (`CropRect.center`). -/
noncomputable def CropRect.center (r : CropRect) : Point :=
  ⟨r.origin.x + 0.5 * r.width, r.origin.y + 0.5 * r.height⟩

/-- The four corners the scale solver iterates over, in source order
(the tuple `corners` inside `CropRect._scale_factor`). -/
noncomputable def CropRect.cornerList (r : CropRect) : List Point :=
  [⟨r.origin.x, r.origin.y⟩,
   ⟨r.origin.x, r.origin.y + r.height⟩,
   ⟨r.origin.x + r.width, r.origin.y⟩,
   ⟨r.origin.x + r.width, r.origin.y + r.height⟩]

/-- Rotation of the representative top-left and bottom-right corners around
the rectangle center (`CropRect._rotate_corners`). -/
noncomputable def CropRect.rotateCorners (r : CropRect) (theta : ℝ) : Point × Point :=
  (Point.rotate ⟨r.origin.x, r.origin.y + r.height⟩ r.center theta,
   Point.rotate ⟨r.origin.x + r.width, r.origin.y⟩ r.center theta)

/-- Loop body of `CropRect._scale_factor` for one rotated corner: the running
scale is maxed with the required ratio of each violated bound, the x axis
using an if/elif pair and the y axis an independent if/elif pair. -/
noncomputable def scaleStep (c : Point) (max_width max_height scale : ℝ) (rotated : Point) :
    ℝ :=
  let s1 :=
    if rotated.x < 0 then max scale (|rotated.x - c.x| / c.x)
    else if rotated.x > max_width then max scale (|rotated.x - c.x| / (max_width - c.x))
    else scale
  if rotated.y < 0 then max s1 (|rotated.y - c.y| / c.y)
  else if rotated.y > max_height then max s1 (|rotated.y - c.y| / (max_height - c.y))
  else s1

/-- Scale factor needed to fit the rotated crop rectangle
(`CropRect._scale_factor`): fold of `scaleStep` over the four rotated corners,
starting from `1.0`. -/
noncomputable def CropRect.scale_factor (r : CropRect) (theta max_width max_height : ℝ) : ℝ :=
  (r.cornerList.map (fun p => p.rotate r.center theta)).foldl
    (scaleStep r.center max_width max_height) 1

/-- Scaling of a point away from the center by the scale factor
(`CropRect._scale_point`): the offset from the center is divided by the factor. -/
noncomputable def CropRect.scale_point (r : CropRect) (poi : Point) (scale_factor : ℝ) :
    Point :=
  ⟨r.center.x + (poi.x - r.center.x) / scale_factor,
   r.center.y + (poi.y - r.center.y) / scale_factor⟩

/-- Degrees-to-radians conversion (`math.radians`). -/
noncomputable def radians (x : ℝ) : ℝ :=
  x * (Real.pi / 180)

/-- Output field map of `CropRect.crop_factors`, one field per dictionary key
(`crs:CropLeft`, `crs:CropTop`, `crs:CropRight`, `crs:CropBottom`,
`crs:CropAngle`, `crs:CropConstrainToWarp`, `crs:CropConstrainToUnitSquare`,
`crs:HasCrop`). -/
structure CrsCrop where
  cropLeft : ℝ
  cropTop : ℝ
  cropRight : ℝ
  cropBottom : ℝ
  cropAngle : ℝ
  cropConstrainToWarp : ℤ
  cropConstrainToUnitSquare : ℤ
  hasCrop : Bool

/-- Crop factors after rotation (`CropRect.crop_factors`): negate the rotation
angle, convert to radians, rotate the representative corners, scale them to
fit, then normalize to the unit square with a vertical flip. -/
noncomputable def CropRect.crop_factors (r : CropRect) : CrsCrop :=
  let theta := radians (-1.0 * r.rotation_degrees)
  let tlbr := r.rotateCorners theta
  let sf := r.scale_factor theta r.orig_width r.orig_height
  let top_left_final := r.scale_point tlbr.1 sf
  let bottom_right_final := r.scale_point tlbr.2 sf
  { cropLeft := top_left_final.x / r.orig_width
    cropTop := 1 - top_left_final.y / r.orig_height
    cropRight := bottom_right_final.x / r.orig_width
    cropBottom := 1 - bottom_right_final.y / r.orig_height
    cropAngle := r.rotation_degrees
    cropConstrainToWarp := 0
    cropConstrainToUnitSquare := 1
    hasCrop := true }

/-- Orientation-conditional permutation of the crop fractions
(`NitroToCRSConverter.maybe_rotate_crop`): for orientation `8` the four
fractions are read out and re-assigned in a cycle, any other orientation
returns the map unchanged. -/
def maybe_rotate_crop (orientation : ℤ) (d : CrsCrop) : CrsCrop :=
  if orientation = 8 then
    { d with
      cropLeft := 1.0 - d.cropBottom
      cropTop := d.cropLeft
      cropRight := 1.0 - d.cropTop
      cropBottom := d.cropRight }
  else d

/-- Crop payload handed to `NitroToCRSConverter.nitro_crop_to_crs`: the
`cropRect` list of coordinate pairs and the `numeric.straighten` angle. -/
structure NitroCropData where
  cropRect : List (ℝ × ℝ)
  straighten : ℝ

/-- Number of parameters besides `self` in the definition of
`CropRect.crop_factors` in `src/crop_calc.py` (it is defined as
`def crop_factors(self)`). -/
def cropFactorsParamCount : Nat := 0

/-- Model of `NitroToCRSConverter.nitro_crop_to_crs`: a malformed `cropRect`
returns the empty dictionary (`none`); otherwise a transformer is constructed
(`CropRect(crop_rect)`, or the full-frame rectangle in the all-zero case, both
with the constructor defaults `rotation_degrees=0.0`, `orig_width=6960`,
`orig_height=4640`) and `transformer.crop_factors(straighten, original_width,
original_height)` is called with three positional arguments.  Python accepts
that call only if the method takes three parameters; since it takes
`cropFactorsParamCount = 0`, the call raises `TypeError`, the surrounding
`except` handler catches it and the function returns the empty dictionary. -/
noncomputable def nitro_crop_to_crs (crop : NitroCropData)
    (original_width original_height : ℝ) : Option CrsCrop :=
  match crop.cropRect with
  | [(x1, y1), (w, h)] =>
    let transformer :=
      if x1 = 0 ∧ y1 = 0 ∧ w = 0 ∧ h = 0 then
        CropRect.ofJson x1 y1 original_width original_height 0 6960 4640
      else
        CropRect.ofJson x1 y1 w h 0 6960 4640
    if cropFactorsParamCount = 3 then some transformer.crop_factors else none
  | _ => none

/-- Required ratio of the x axis for one rotated corner, written from the
specification's words: below `0` the ratio against the center, above the
width the ratio against the remaining span, otherwise no shrink is required
(the neutral value `1`). -/
noncomputable def requiredRatioX (c : Point) (max_width : ℝ) (rot : Point) : ℝ :=
  max (if rot.x < 0 then |rot.x - c.x| / c.x else 1)
    (if max_width < rot.x then |rot.x - c.x| / (max_width - c.x) else 1)

/-- Required ratio of the y axis for one rotated corner, symmetric to
`requiredRatioX` against the height. -/
noncomputable def requiredRatioY (c : Point) (max_height : ℝ) (rot : Point) : ℝ :=
  max (if rot.y < 0 then |rot.y - c.y| / c.y else 1)
    (if max_height < rot.y then |rot.y - c.y| / (max_height - c.y) else 1)

/-- Scale factor as the specification words it: the maximum, over the four
rotated corners and both axes, of the required ratios, floored at `1.0`. -/
noncomputable def specScaleFactor (r : CropRect) (theta max_width max_height : ℝ) : ℝ :=
  max 1
    ((r.cornerList.map (fun p => p.rotate r.center theta)).foldr
      (fun rot m =>
        max (max (requiredRatioX r.center max_width rot)
          (requiredRatioY r.center max_height rot)) m) 1)

/-- Condition under which `CropRect._scale_factor` evaluates a division whose
denominator is zero (Python raises `ZeroDivisionError` there): some corner,
once rotated, takes a violated-bound branch whose denominator (`center.x`,
`max_width - center.x`, `center.y` or `max_height - center.y`) is zero. -/
def CropRect.scaleDivByZero (r : CropRect) (theta max_width max_height : ℝ) : Prop :=
  ∃ p ∈ r.cornerList,
    ((Point.rotate p r.center theta).x < 0 ∧ r.center.x = 0) ∨
    (¬ (Point.rotate p r.center theta).x < 0 ∧ max_width < (Point.rotate p r.center theta).x ∧
      max_width - r.center.x = 0) ∨
    ((Point.rotate p r.center theta).y < 0 ∧ r.center.y = 0) ∨
    (¬ (Point.rotate p r.center theta).y < 0 ∧ max_height < (Point.rotate p r.center theta).y ∧
      max_height - r.center.y = 0)

/-- Rotation by angle `0` is the identity. -/
theorem Point.rotate_zero (p c : Point) : p.rotate c 0 = p := by
  cases p
  simp [Point.rotate]

/-- Scaling by factor `1` is the identity. -/
theorem CropRect.scale_point_one (r : CropRect) (p : Point) : r.scale_point p 1 = p := by
  cases p
  simp [CropRect.scale_point]

/-- One pass of the solver loop never decreases the running scale. -/
theorem scaleStep_le (c : Point) (W H acc : ℝ) (rot : Point) :
    acc ≤ scaleStep c W H acc rot := by
  unfold scaleStep
  split_ifs <;> simp [le_max_iff]

/-- A corner rotated to a position inside the bounds leaves the running scale
unchanged. -/
theorem scaleStep_inbounds (c : Point) (W H acc : ℝ) (rot : Point)
    (h1 : ¬ rot.x < 0) (h2 : ¬ W < rot.x) (h3 : ¬ rot.y < 0) (h4 : ¬ H < rot.y) :
    scaleStep c W H acc rot = acc := by
  unfold scaleStep
  simp [h1, h2, h3, h4]

/-- A corner rotated below the left bound pushes the running scale to at least
its required x ratio. -/
theorem le_scaleStep_x_lo (c : Point) (W H acc : ℝ) (rot : Point) (hx : rot.x < 0) :
    |rot.x - c.x| / c.x ≤ scaleStep c W H acc rot := by
  unfold scaleStep
  simp only [if_pos hx]
  split_ifs <;> simp [le_max_iff]

/-- A corner rotated past the right bound pushes the running scale to at least
its required x ratio. -/
theorem le_scaleStep_x_hi (c : Point) (W H acc : ℝ) (rot : Point)
    (hx' : ¬ rot.x < 0) (hx : W < rot.x) :
    |rot.x - c.x| / (W - c.x) ≤ scaleStep c W H acc rot := by
  unfold scaleStep
  simp only [if_neg hx', if_pos hx]
  split_ifs <;> simp [le_max_iff]

/-- A corner rotated below the bottom bound pushes the running scale to at
least its required y ratio. -/
theorem le_scaleStep_y_lo (c : Point) (W H acc : ℝ) (rot : Point) (hy : rot.y < 0) :
    |rot.y - c.y| / c.y ≤ scaleStep c W H acc rot := by
  unfold scaleStep
  simp [if_pos hy, le_max_iff]

/-- A corner rotated past the top bound pushes the running scale to at least
its required y ratio. -/
theorem le_scaleStep_y_hi (c : Point) (W H acc : ℝ) (rot : Point)
    (hy' : ¬ rot.y < 0) (hy : H < rot.y) :
    |rot.y - c.y| / (H - c.y) ≤ scaleStep c W H acc rot := by
  unfold scaleStep
  simp [if_neg hy', if_pos hy, le_max_iff]

/-- The solver is the four-fold application of `scaleStep` to the rotated
corners, in source order, starting from `1`. -/
theorem scale_factor_eq_steps (r : CropRect) (theta W H : ℝ) :
    r.scale_factor theta W H =
      scaleStep r.center W H
        (scaleStep r.center W H
          (scaleStep r.center W H
            (scaleStep r.center W H 1
              (Point.rotate ⟨r.origin.x, r.origin.y⟩ r.center theta))
            (Point.rotate ⟨r.origin.x, r.origin.y + r.height⟩ r.center theta))
          (Point.rotate ⟨r.origin.x + r.width, r.origin.y⟩ r.center theta))
        (Point.rotate ⟨r.origin.x + r.width, r.origin.y + r.height⟩ r.center theta) := by
  simp [CropRect.scale_factor, CropRect.cornerList, List.foldl]

/-- The solver never scales up: its result is at least `1`. -/
theorem one_le_scale_factor (r : CropRect) (theta W H : ℝ) :
    1 ≤ r.scale_factor theta W H := by
  rw [scale_factor_eq_steps]
  exact le_trans (le_trans (le_trans (scaleStep_le _ _ _ _ _)
    (scaleStep_le _ _ _ _ _)) (scaleStep_le _ _ _ _ _)) (scaleStep_le _ _ _ _ _)

/-- Per-corner guarantees of the solver: every violated bound of every corner
contributes its required ratio as a lower bound of the result. -/
theorem scale_factor_bounds (r : CropRect) (theta W H : ℝ) (p : Point)
    (hp : p ∈ r.cornerList) :
    ((p.rotate r.center theta).x < 0 →
      |(p.rotate r.center theta).x - r.center.x| / r.center.x ≤ r.scale_factor theta W H) ∧
    (¬ (p.rotate r.center theta).x < 0 → W < (p.rotate r.center theta).x →
      |(p.rotate r.center theta).x - r.center.x| / (W - r.center.x) ≤
        r.scale_factor theta W H) ∧
    ((p.rotate r.center theta).y < 0 →
      |(p.rotate r.center theta).y - r.center.y| / r.center.y ≤ r.scale_factor theta W H) ∧
    (¬ (p.rotate r.center theta).y < 0 → H < (p.rotate r.center theta).y →
      |(p.rotate r.center theta).y - r.center.y| / (H - r.center.y) ≤
        r.scale_factor theta W H) := by
  rw [scale_factor_eq_steps]
  simp only [CropRect.cornerList, List.mem_cons, List.not_mem_nil, or_false] at hp
  rcases hp with hp | hp | hp | hp <;> subst hp
  · refine ⟨fun hx => ?_, fun hx' hx => ?_, fun hy => ?_, fun hy' hy => ?_⟩ <;>
      refine le_trans (le_trans (le_trans ?_ (scaleStep_le _ _ _ _ _))
        (scaleStep_le _ _ _ _ _)) (scaleStep_le _ _ _ _ _)
    · exact le_scaleStep_x_lo _ _ _ _ _ hx
    · exact le_scaleStep_x_hi _ _ _ _ _ hx' hx
    · exact le_scaleStep_y_lo _ _ _ _ _ hy
    · exact le_scaleStep_y_hi _ _ _ _ _ hy' hy
  · refine ⟨fun hx => ?_, fun hx' hx => ?_, fun hy => ?_, fun hy' hy => ?_⟩ <;>
      refine le_trans (le_trans ?_ (scaleStep_le _ _ _ _ _)) (scaleStep_le _ _ _ _ _)
    · exact le_scaleStep_x_lo _ _ _ _ _ hx
    · exact le_scaleStep_x_hi _ _ _ _ _ hx' hx
    · exact le_scaleStep_y_lo _ _ _ _ _ hy
    · exact le_scaleStep_y_hi _ _ _ _ _ hy' hy
  · refine ⟨fun hx => ?_, fun hx' hx => ?_, fun hy => ?_, fun hy' hy => ?_⟩ <;>
      refine le_trans ?_ (scaleStep_le _ _ _ _ _)
    · exact le_scaleStep_x_lo _ _ _ _ _ hx
    · exact le_scaleStep_x_hi _ _ _ _ _ hx' hx
    · exact le_scaleStep_y_lo _ _ _ _ _ hy
    · exact le_scaleStep_y_hi _ _ _ _ _ hy' hy
  · refine ⟨fun hx => ?_, fun hx' hx => ?_, fun hy => ?_, fun hy' hy => ?_⟩
    · exact le_scaleStep_x_lo _ _ _ _ _ hx
    · exact le_scaleStep_x_hi _ _ _ _ _ hx' hx
    · exact le_scaleStep_y_lo _ _ _ _ _ hy
    · exact le_scaleStep_y_hi _ _ _ _ _ hy' hy

/-- When every rotated corner already lies inside the bounds the solver
returns exactly `1`. -/
theorem scale_factor_eq_one_of_inbounds (r : CropRect) (theta W H : ℝ)
    (hall : ∀ p ∈ r.cornerList,
      0 ≤ (p.rotate r.center theta).x ∧ (p.rotate r.center theta).x ≤ W ∧
        0 ≤ (p.rotate r.center theta).y ∧ (p.rotate r.center theta).y ≤ H) :
    r.scale_factor theta W H = 1 := by
  rw [scale_factor_eq_steps]
  have h1 := hall ⟨r.origin.x, r.origin.y⟩ (by simp [CropRect.cornerList])
  have h2 := hall ⟨r.origin.x, r.origin.y + r.height⟩ (by simp [CropRect.cornerList])
  have h3 := hall ⟨r.origin.x + r.width, r.origin.y⟩ (by simp [CropRect.cornerList])
  have h4 := hall ⟨r.origin.x + r.width, r.origin.y + r.height⟩ (by simp [CropRect.cornerList])
  rw [scaleStep_inbounds _ _ _ _ _ (not_lt.2 h1.1) (not_lt.2 h1.2.1)
      (not_lt.2 h1.2.2.1) (not_lt.2 h1.2.2.2),
    scaleStep_inbounds _ _ _ _ _ (not_lt.2 h2.1) (not_lt.2 h2.2.1)
      (not_lt.2 h2.2.2.1) (not_lt.2 h2.2.2.2),
    scaleStep_inbounds _ _ _ _ _ (not_lt.2 h3.1) (not_lt.2 h3.2.1)
      (not_lt.2 h3.2.2.1) (not_lt.2 h3.2.2.2),
    scaleStep_inbounds _ _ _ _ _ (not_lt.2 h4.1) (not_lt.2 h4.2.1)
      (not_lt.2 h4.2.2.1) (not_lt.2 h4.2.2.2)]

/-- Unfolding of `crop_factors` into its pipeline stages. -/
theorem crop_factors_def (r : CropRect) :
    r.crop_factors =
      { cropLeft :=
          (r.scale_point (r.rotateCorners (radians (-1.0 * r.rotation_degrees))).1
            (r.scale_factor (radians (-1.0 * r.rotation_degrees)) r.orig_width
              r.orig_height)).x / r.orig_width
        cropTop :=
          1 - (r.scale_point (r.rotateCorners (radians (-1.0 * r.rotation_degrees))).1
            (r.scale_factor (radians (-1.0 * r.rotation_degrees)) r.orig_width
              r.orig_height)).y / r.orig_height
        cropRight :=
          (r.scale_point (r.rotateCorners (radians (-1.0 * r.rotation_degrees))).2
            (r.scale_factor (radians (-1.0 * r.rotation_degrees)) r.orig_width
              r.orig_height)).x / r.orig_width
        cropBottom :=
          1 - (r.scale_point (r.rotateCorners (radians (-1.0 * r.rotation_degrees))).2
            (r.scale_factor (radians (-1.0 * r.rotation_degrees)) r.orig_width
              r.orig_height)).y / r.orig_height
        cropAngle := r.rotation_degrees
        cropConstrainToWarp := 0
        cropConstrainToUnitSquare := 1
        hasCrop := true } :=
  rfl

/-- C6: at rotation `0` an in-bounds rectangle is passed through with no
scaling, so the fractions are exactly the normalized rectangle coordinates
with the vertical flip, the angle is `0` and the crop flag is set. -/
theorem zero_rotation_crop (r : CropRect) (hrot : r.rotation_degrees = 0)
    (hw : 0 ≤ r.width) (hh : 0 ≤ r.height)
    (hx0 : 0 ≤ r.origin.x) (hxW : r.origin.x + r.width ≤ r.orig_width)
    (hy0 : 0 ≤ r.origin.y) (hyH : r.origin.y + r.height ≤ r.orig_height) :
    r.crop_factors.cropLeft = r.origin.x / r.orig_width ∧
    r.crop_factors.cropRight = (r.origin.x + r.width) / r.orig_width ∧
    r.crop_factors.cropTop = 1 - (r.origin.y + r.height) / r.orig_height ∧
    r.crop_factors.cropBottom = 1 - r.origin.y / r.orig_height ∧
    r.crop_factors.cropAngle = 0 ∧
    r.crop_factors.hasCrop = true := by
  have htheta : radians (-1.0 * r.rotation_degrees) = 0 := by
    rw [hrot]
    simp [radians]
  have hsf : r.scale_factor 0 r.orig_width r.orig_height = 1 := by
    apply scale_factor_eq_one_of_inbounds
    intro p hp
    simp only [CropRect.cornerList, List.mem_cons, List.not_mem_nil, or_false] at hp
    rcases hp with hp | hp | hp | hp <;> subst hp <;> rw [Point.rotate_zero] <;> dsimp only
    · exact ⟨hx0, by linarith, hy0, by linarith⟩
    · exact ⟨hx0, by linarith, by linarith, hyH⟩
    · exact ⟨by linarith, hxW, hy0, by linarith⟩
    · exact ⟨by linarith, hxW, by linarith, hyH⟩
  rw [crop_factors_def, htheta, hsf]
  simp only [CropRect.rotateCorners, Point.rotate_zero, CropRect.scale_point_one]
  simp [hrot]

/-- Witness for C6: origin `(25,25)`, size `(50,50)`, image `100` by `100`
gives left `0.25`, top `0.25`, right `0.75`, bottom `0.75`, angle `0`, crop
flag set. -/
theorem zero_rotation_crop_check :
    (CropRect.ofJson 25 25 50 50 0 100 100).crop_factors.cropLeft = 0.25 ∧
    (CropRect.ofJson 25 25 50 50 0 100 100).crop_factors.cropTop = 0.25 ∧
    (CropRect.ofJson 25 25 50 50 0 100 100).crop_factors.cropRight = 0.75 ∧
    (CropRect.ofJson 25 25 50 50 0 100 100).crop_factors.cropBottom = 0.75 ∧
    (CropRect.ofJson 25 25 50 50 0 100 100).crop_factors.cropAngle = 0 ∧
    (CropRect.ofJson 25 25 50 50 0 100 100).crop_factors.hasCrop = true := by
  have h := zero_rotation_crop (CropRect.ofJson 25 25 50 50 0 100 100)
    (by norm_num [CropRect.ofJson]) (by norm_num [CropRect.ofJson])
    (by norm_num [CropRect.ofJson]) (by norm_num [CropRect.ofJson])
    (by norm_num [CropRect.ofJson]) (by norm_num [CropRect.ofJson])
    (by norm_num [CropRect.ofJson])
  obtain ⟨h1, h2, h3, h4, h5, h6⟩ := h
  refine ⟨?_, ?_, ?_, ?_, h5, h6⟩
  · rw [h1]; norm_num [CropRect.ofJson]
  · rw [h3]; norm_num [CropRect.ofJson]
  · rw [h2]; norm_num [CropRect.ofJson]
  · rw [h4]; norm_num [CropRect.ofJson]

/-- C8: when every rotated corner lands exactly on an image edge and none is
strictly outside the bounds, the solver returns exactly `1`. -/
theorem boundary_touch_scale_one (r : CropRect) (theta W H : ℝ)
    (hall : ∀ p ∈ r.cornerList,
      ((p.rotate r.center theta).x = 0 ∨ (p.rotate r.center theta).x = W ∨
        (p.rotate r.center theta).y = 0 ∨ (p.rotate r.center theta).y = H) ∧
      (0 ≤ (p.rotate r.center theta).x ∧ (p.rotate r.center theta).x ≤ W ∧
        0 ≤ (p.rotate r.center theta).y ∧ (p.rotate r.center theta).y ≤ H)) :
    r.scale_factor theta W H = 1 :=
  scale_factor_eq_one_of_inbounds r theta W H (fun p hp => (hall p hp).2)

/-- Witness for C8: the full-frame rectangle of a `100` by `100` image at
angle `0` touches all four edges and computes scale factor `1`. -/
theorem boundary_touch_scale_one_check :
    (CropRect.ofJson 0 0 100 100 0 100 100).scale_factor 0 100 100 = 1 := by
  apply boundary_touch_scale_one
  intro p hp
  simp only [CropRect.cornerList, CropRect.ofJson, List.mem_cons, List.not_mem_nil,
    or_false] at hp
  rcases hp with hp | hp | hp | hp <;> subst hp <;> rw [Point.rotate_zero] <;> dsimp only <;>
    norm_num

/-- C4: for a well-formed crop payload, `nitro_crop_to_crs` returns the empty
dictionary: the call `transformer.crop_factors(straighten, original_width,
original_height)` passes three arguments to a method that takes none, the
`TypeError` is caught and `{}` is returned. -/
theorem nitro_crop_to_crs_empty :
    nitro_crop_to_crs ⟨[(25, 25), (50, 50)], 0⟩ 100 100 = none :=
  rfl

/-- C5 counterexample: no upfront validation exists.  A rectangle with
negative width and height is constructed unchanged and the geometry pipeline
runs on it to completion, and a rectangle whose center lies on `x = 0` with a
corner at negative x reaches the solver division whose denominator is zero. -/
theorem validation_counterexample :
    (CropRect.ofJson 0 0 (-10) (-10) 0 100 100).width = -10 ∧
    (CropRect.ofJson 0 0 (-10) (-10) 0 100 100).crop_factors.hasCrop = true ∧
    (CropRect.ofJson (-1) 0 2 2 0 100 100).scaleDivByZero 0 100 100 := by
  refine ⟨by norm_num [CropRect.ofJson], rfl, ?_⟩
  refine ⟨⟨-1, 0⟩, ?_, Or.inl ⟨?_, ?_⟩⟩
  · simp [CropRect.cornerList, CropRect.ofJson]
  · rw [Point.rotate_zero]
    norm_num
  · norm_num [CropRect.center, CropRect.ofJson]

/-- C5 amended: the code performs no input validation.  The constructor
accepts nonpositive dimensions unchanged (the sentinel only fires at exactly
zero), and whenever a rectangle's center lies on `x = 0` while its first
corner rotates to a negative x, the solver's division by zero condition holds
instead of being prevented. -/
theorem validation_absent (x1 y1 w h d W H : ℝ) (hw : w < 0) (hh : h < 0) :
    ((CropRect.ofJson x1 y1 w h d W H).width = w ∧
      (CropRect.ofJson x1 y1 w h d W H).height = h) ∧
    (∀ (r : CropRect) (theta max_width max_height : ℝ),
      r.center.x = 0 → (Point.rotate ⟨r.origin.x, r.origin.y⟩ r.center theta).x < 0 →
        r.scaleDivByZero theta max_width max_height) := by
  constructor
  · constructor
    · simp [CropRect.ofJson, ne_of_lt hw]
    · simp [CropRect.ofJson, ne_of_lt hh]
  · intro r theta mw mh hcx hneg
    exact ⟨⟨r.origin.x, r.origin.y⟩, by simp [CropRect.cornerList], Or.inl ⟨hneg, hcx⟩⟩

/-- Witness for C5's amended statement: concrete nonpositive dimensions are
stored unchanged. -/
theorem validation_absent_check :
    (CropRect.ofJson 0 0 (-3) (-4) 0 100 100).width = -3 ∧
      (CropRect.ofJson 0 0 (-3) (-4) 0 100 100).height = -4 :=
  ⟨(validation_absent 0 0 (-3) (-4) 0 100 100 (by norm_num) (by norm_num)).1.1,
   (validation_absent 0 0 (-3) (-4) 0 100 100 (by norm_num) (by norm_num)).1.2⟩

/-- C2: `crop_factors` uses the negated rotation angle in radians internally,
normalizes the scaled corners against the original dimensions with a vertical
flip, passes the original angle through unchanged and emits the two
format-conformance flags and the crop flag as constants. -/
theorem crop_factors_assembly (r : CropRect) :
    r.crop_factors =
      { cropLeft :=
          (r.scale_point (r.rotateCorners (-radians r.rotation_degrees)).1
            (r.scale_factor (-radians r.rotation_degrees) r.orig_width r.orig_height)).x /
              r.orig_width
        cropTop :=
          1 - (r.scale_point (r.rotateCorners (-radians r.rotation_degrees)).1
            (r.scale_factor (-radians r.rotation_degrees) r.orig_width r.orig_height)).y /
              r.orig_height
        cropRight :=
          (r.scale_point (r.rotateCorners (-radians r.rotation_degrees)).2
            (r.scale_factor (-radians r.rotation_degrees) r.orig_width r.orig_height)).x /
              r.orig_width
        cropBottom :=
          1 - (r.scale_point (r.rotateCorners (-radians r.rotation_degrees)).2
            (r.scale_factor (-radians r.rotation_degrees) r.orig_width r.orig_height)).y /
              r.orig_height
        cropAngle := r.rotation_degrees
        cropConstrainToWarp := 0
        cropConstrainToUnitSquare := 1
        hasCrop := true } := by
  have h : radians (-1.0 * r.rotation_degrees) = -radians r.rotation_degrees := by
    unfold radians
    ring
  rw [crop_factors_def, h]

set_option maxHeartbeats 1600000 in
/-- One pass of the solver loop is bounded by the old scale maxed with the
specification's required ratios of the corner. -/
theorem scaleStep_le_max (c : Point) (W H acc : ℝ) (rot : Point) :
    scaleStep c W H acc rot ≤
      max acc (max (requiredRatioX c W rot) (requiredRatioY c H rot)) := by
  unfold scaleStep requiredRatioX requiredRatioY
  split_ifs <;> (repeat' apply max_le) <;> simp [le_max_iff]

/-- The specification's per-axis required ratios of any corner are lower
bounds of the solver's result when the bounds are positive. -/
theorem requiredRatio_le_scale_factor (r : CropRect) (theta W H : ℝ)
    (hW : 0 < W) (hH : 0 < H) (p : Point) (hp : p ∈ r.cornerList) :
    requiredRatioX r.center W (p.rotate r.center theta) ≤ r.scale_factor theta W H ∧
      requiredRatioY r.center H (p.rotate r.center theta) ≤ r.scale_factor theta W H := by
  have hb := scale_factor_bounds r theta W H p hp
  have h1 := one_le_scale_factor r theta W H
  constructor
  · unfold requiredRatioX
    apply max_le
    · by_cases hx : (p.rotate r.center theta).x < 0
      · rw [if_pos hx]
        exact hb.1 hx
      · rw [if_neg hx]
        exact h1
    · by_cases hx : W < (p.rotate r.center theta).x
      · rw [if_pos hx]
        exact hb.2.1 (by intro hneg; linarith) hx
      · rw [if_neg hx]
        exact h1
  · unfold requiredRatioY
    apply max_le
    · by_cases hy : (p.rotate r.center theta).y < 0
      · rw [if_pos hy]
        exact hb.2.2.1 hy
      · rw [if_neg hy]
        exact h1
    · by_cases hy : H < (p.rotate r.center theta).y
      · rw [if_pos hy]
        exact hb.2.2.2 (by intro hneg; linarith) hy
      · rw [if_neg hy]
        exact h1

set_option maxHeartbeats 3200000 in
/-- C1: with positive resolved dimensions and bounds, the solver computes
exactly the specification's formula, the maximum of the required per-corner,
per-axis ratios floored at `1`. -/
theorem scale_factor_matches_spec (r : CropRect) (theta : ℝ)
    (hw : 0 < r.width) (hh : 0 < r.height)
    (hW : 0 < r.orig_width) (hH : 0 < r.orig_height) :
    r.scale_factor theta r.orig_width r.orig_height =
      specScaleFactor r theta r.orig_width r.orig_height := by
  have hm1 : (⟨r.origin.x, r.origin.y⟩ : Point) ∈ r.cornerList := by
    simp [CropRect.cornerList]
  have hm2 : (⟨r.origin.x, r.origin.y + r.height⟩ : Point) ∈ r.cornerList := by
    simp [CropRect.cornerList]
  have hm3 : (⟨r.origin.x + r.width, r.origin.y⟩ : Point) ∈ r.cornerList := by
    simp [CropRect.cornerList]
  have hm4 : (⟨r.origin.x + r.width, r.origin.y + r.height⟩ : Point) ∈ r.cornerList := by
    simp [CropRect.cornerList]
  have hr1 := requiredRatio_le_scale_factor r theta r.orig_width r.orig_height hW hH _ hm1
  have hr2 := requiredRatio_le_scale_factor r theta r.orig_width r.orig_height hW hH _ hm2
  have hr3 := requiredRatio_le_scale_factor r theta r.orig_width r.orig_height hW hH _ hm3
  have hr4 := requiredRatio_le_scale_factor r theta r.orig_width r.orig_height hW hH _ hm4
  have hone := one_le_scale_factor r theta r.orig_width r.orig_height
  apply le_antisymm
  · rw [scale_factor_eq_steps]
    have t1 := scaleStep_le_max r.center r.orig_width r.orig_height 1
      (Point.rotate ⟨r.origin.x, r.origin.y⟩ r.center theta)
    have t2 := le_trans
      (scaleStep_le_max r.center r.orig_width r.orig_height _
        (Point.rotate ⟨r.origin.x, r.origin.y + r.height⟩ r.center theta))
      (max_le_max t1 (le_refl _))
    have t3 := le_trans
      (scaleStep_le_max r.center r.orig_width r.orig_height _
        (Point.rotate ⟨r.origin.x + r.width, r.origin.y⟩ r.center theta))
      (max_le_max t2 (le_refl _))
    have t4 := le_trans
      (scaleStep_le_max r.center r.orig_width r.orig_height _
        (Point.rotate ⟨r.origin.x + r.width, r.origin.y + r.height⟩ r.center theta))
      (max_le_max t3 (le_refl _))
    refine le_trans t4 ?_
    simp only [specScaleFactor, CropRect.cornerList, List.map_cons, List.map_nil,
      List.foldr_cons, List.foldr_nil]
    repeat' apply max_le
    all_goals simp [requiredRatioX, requiredRatioY, le_max_iff]
  · simp only [specScaleFactor, CropRect.cornerList, List.map_cons, List.map_nil,
      List.foldr_cons, List.foldr_nil]
    exact max_le hone
      (max_le (max_le hr1.1 hr1.2)
        (max_le (max_le hr2.1 hr2.2)
          (max_le (max_le hr3.1 hr3.2)
            (max_le (max_le hr4.1 hr4.2) hone))))

/-- Witness for C1: the solver and the specification formula agree on the
concrete rectangle origin `(25,25)`, size `(50,50)` in a `100` by `100` image
at angle `0`, whose resolved dimensions and bounds are positive. -/
theorem scale_factor_matches_spec_check :
    (0 : ℝ) < (CropRect.ofJson 25 25 50 50 0 100 100).width ∧
    (0 : ℝ) < (CropRect.ofJson 25 25 50 50 0 100 100).height ∧
    (0 : ℝ) < (CropRect.ofJson 25 25 50 50 0 100 100).orig_width ∧
    (0 : ℝ) < (CropRect.ofJson 25 25 50 50 0 100 100).orig_height ∧
    (CropRect.ofJson 25 25 50 50 0 100 100).scale_factor 0
        (CropRect.ofJson 25 25 50 50 0 100 100).orig_width
        (CropRect.ofJson 25 25 50 50 0 100 100).orig_height =
      specScaleFactor (CropRect.ofJson 25 25 50 50 0 100 100) 0
        (CropRect.ofJson 25 25 50 50 0 100 100).orig_width
        (CropRect.ofJson 25 25 50 50 0 100 100).orig_height := by
  refine ⟨by norm_num [CropRect.ofJson], by norm_num [CropRect.ofJson],
    by norm_num [CropRect.ofJson], by norm_num [CropRect.ofJson], ?_⟩
  exact scale_factor_matches_spec (CropRect.ofJson 25 25 50 50 0 100 100) 0
    (by norm_num [CropRect.ofJson]) (by norm_num [CropRect.ofJson])
    (by norm_num [CropRect.ofJson]) (by norm_num [CropRect.ofJson])

/-- Clamping effect of the scale division on one coordinate: when the scale
dominates the required ratio of each violated bound, the scaled coordinate
lands inside `[0, B]`. -/
theorem clamp01 (cx x s B : ℝ) (hcx : 0 < cx) (hcxB : cx < B) (hs : 1 ≤ s)
    (hlo : x < 0 → (cx - x) / cx ≤ s) (hhi : B < x → (x - cx) / (B - cx) ≤ s) :
    0 ≤ cx + (x - cx) / s ∧ cx + (x - cx) / s ≤ B := by
  have hs0 : (0:ℝ) < s := by linarith
  rcases lt_trichotomy x 0 with hx | hx | hx
  · have h1 : (cx - x) / cx ≤ s := hlo hx
    have h2 : cx - x ≤ s * cx := by
      have := (div_le_iff₀ hcx).mp h1
      linarith
    constructor
    · have h3 : (cx - x) / s ≤ cx := by
        rw [div_le_iff₀ hs0]
        nlinarith
      have h4 : cx + (x - cx) / s = cx - (cx - x) / s := by ring
      rw [h4]
      linarith
    · have h5 : (x - cx) / s < 0 := div_neg_of_neg_of_pos (by linarith) hs0
      linarith
  · subst hx
    constructor
    · have h3 : (cx - 0) / s ≤ cx := by
        rw [div_le_iff₀ hs0]
        nlinarith
      have h4 : cx + (0 - cx) / s = cx - (cx - 0) / s := by ring
      rw [h4]
      linarith
    · have h5 : (0 - cx) / s < 0 := div_neg_of_neg_of_pos (by linarith) hs0
      linarith
  · rcases le_or_lt x B with hxB | hxB
    · constructor
      · rcases le_or_lt cx x with h | h
        · have h6 : 0 ≤ (x - cx) / s := div_nonneg (by linarith) (le_of_lt hs0)
          linarith
        · have h6 : (cx - x) / s ≤ cx - x := div_le_self (by linarith) hs
          have h4 : cx + (x - cx) / s = cx - (cx - x) / s := by ring
          rw [h4]
          linarith
      · rcases le_or_lt cx x with h | h
        · have h6 : (x - cx) / s ≤ x - cx := div_le_self (by linarith) hs
          linarith
        · have h6 : (x - cx) / s < 0 := div_neg_of_neg_of_pos (by linarith) hs0
          linarith
    · have h1 : (x - cx) / (B - cx) ≤ s := hhi hxB
      have hBcx : (0:ℝ) < B - cx := by linarith
      have h2 : x - cx ≤ s * (B - cx) := by
        have := (div_le_iff₀ hBcx).mp h1
        linarith
      constructor
      · have h6 : 0 ≤ (x - cx) / s := div_nonneg (by linarith) (le_of_lt hs0)
        linarith
      · have h3 : (x - cx) / s ≤ B - cx := by
          rw [div_le_iff₀ hs0]
          nlinarith
        linarith

/-- C3 amended: for a rectangle with positive dimensions lying inside the
image bounds, all four output fractions lie in `[0, 1]` exactly (hence
within any tolerance) for every finite rotation; the orderings left < right
and top < bottom hold additionally whenever the internal angle keeps the
rotated representative corners oriented, which is the case in particular at
rotation `0`.  Without the containment hypothesis a fraction can leave
`[0, 1]`, and at rotation `180` the orderings reverse. -/
theorem crop_range_invariant (r : CropRect)
    (hw : 0 < r.width) (hh : 0 < r.height)
    (hW : 0 < r.orig_width) (hH : 0 < r.orig_height)
    (hx0 : 0 ≤ r.origin.x) (hxW : r.origin.x + r.width ≤ r.orig_width)
    (hy0 : 0 ≤ r.origin.y) (hyH : r.origin.y + r.height ≤ r.orig_height) :
    (0 ≤ r.crop_factors.cropLeft ∧ r.crop_factors.cropLeft ≤ 1) ∧
    (0 ≤ r.crop_factors.cropTop ∧ r.crop_factors.cropTop ≤ 1) ∧
    (0 ≤ r.crop_factors.cropRight ∧ r.crop_factors.cropRight ≤ 1) ∧
    (0 ≤ r.crop_factors.cropBottom ∧ r.crop_factors.cropBottom ≤ 1) ∧
    (0 < r.width * Real.cos (radians (-1.0 * r.rotation_degrees)) +
        r.height * Real.sin (radians (-1.0 * r.rotation_degrees)) →
      0 < r.height * Real.cos (radians (-1.0 * r.rotation_degrees)) -
        r.width * Real.sin (radians (-1.0 * r.rotation_degrees)) →
      r.crop_factors.cropLeft < r.crop_factors.cropRight ∧
        r.crop_factors.cropTop < r.crop_factors.cropBottom) := by
  have hcxv : r.center.x = r.origin.x + 0.5 * r.width := rfl
  have hcyv : r.center.y = r.origin.y + 0.5 * r.height := rfl
  have hcx0 : 0 < r.center.x := by rw [hcxv]; linarith
  have hcxW : r.center.x < r.orig_width := by rw [hcxv]; linarith
  have hcy0 : 0 < r.center.y := by rw [hcyv]; linarith
  have hcyH : r.center.y < r.orig_height := by rw [hcyv]; linarith
  set θ := radians (-1.0 * r.rotation_degrees) with hθ
  have hb2 := scale_factor_bounds r θ r.orig_width r.orig_height
    ⟨r.origin.x, r.origin.y + r.height⟩ (by simp [CropRect.cornerList])
  have hb3 := scale_factor_bounds r θ r.orig_width r.orig_height
    ⟨r.origin.x + r.width, r.origin.y⟩ (by simp [CropRect.cornerList])
  have hs1 : 1 ≤ r.scale_factor θ r.orig_width r.orig_height :=
    one_le_scale_factor r θ r.orig_width r.orig_height
  set s := r.scale_factor θ r.orig_width r.orig_height with hsdef
  set q2 := Point.rotate ⟨r.origin.x, r.origin.y + r.height⟩ r.center θ with hq2
  set q3 := Point.rotate ⟨r.origin.x + r.width, r.origin.y⟩ r.center θ with hq3
  have hs0 : (0:ℝ) < s := by linarith
  have hL : r.crop_factors.cropLeft =
      (r.center.x + (q2.x - r.center.x) / s) / r.orig_width := rfl
  have hT : r.crop_factors.cropTop =
      1 - (r.center.y + (q2.y - r.center.y) / s) / r.orig_height := rfl
  have hR : r.crop_factors.cropRight =
      (r.center.x + (q3.x - r.center.x) / s) / r.orig_width := rfl
  have hBo : r.crop_factors.cropBottom =
      1 - (r.center.y + (q3.y - r.center.y) / s) / r.orig_height := rfl
  have h2x := clamp01 r.center.x q2.x s r.orig_width hcx0 hcxW hs1
    (fun hneg => by
      have h := hb2.1 hneg
      rwa [abs_of_neg (show q2.x - r.center.x < 0 by linarith), neg_sub] at h)
    (fun hgt => by
      have h := hb2.2.1 (not_lt.2 (by linarith)) hgt
      rwa [abs_of_pos (show 0 < q2.x - r.center.x by linarith)] at h)
  have h2y := clamp01 r.center.y q2.y s r.orig_height hcy0 hcyH hs1
    (fun hneg => by
      have h := hb2.2.2.1 hneg
      rwa [abs_of_neg (show q2.y - r.center.y < 0 by linarith), neg_sub] at h)
    (fun hgt => by
      have h := hb2.2.2.2 (not_lt.2 (by linarith)) hgt
      rwa [abs_of_pos (show 0 < q2.y - r.center.y by linarith)] at h)
  have h3x := clamp01 r.center.x q3.x s r.orig_width hcx0 hcxW hs1
    (fun hneg => by
      have h := hb3.1 hneg
      rwa [abs_of_neg (show q3.x - r.center.x < 0 by linarith), neg_sub] at h)
    (fun hgt => by
      have h := hb3.2.1 (not_lt.2 (by linarith)) hgt
      rwa [abs_of_pos (show 0 < q3.x - r.center.x by linarith)] at h)
  have h3y := clamp01 r.center.y q3.y s r.orig_height hcy0 hcyH hs1
    (fun hneg => by
      have h := hb3.2.2.1 hneg
      rwa [abs_of_neg (show q3.y - r.center.y < 0 by linarith), neg_sub] at h)
    (fun hgt => by
      have h := hb3.2.2.2 (not_lt.2 (by linarith)) hgt
      rwa [abs_of_pos (show 0 < q3.y - r.center.y by linarith)] at h)
  have hdx : q3.x - q2.x = r.width * Real.cos θ + r.height * Real.sin θ := by
    rw [hq2, hq3]
    simp only [Point.rotate]
    ring
  have hdy : q2.y - q3.y = r.height * Real.cos θ - r.width * Real.sin θ := by
    rw [hq2, hq3]
    simp only [Point.rotate]
    ring
  rw [hL, hT, hR, hBo]
  refine ⟨⟨div_nonneg h2x.1 (le_of_lt hW), (div_le_one hW).mpr h2x.2⟩, ⟨?_, ?_⟩,
    ⟨div_nonneg h3x.1 (le_of_lt hW), (div_le_one hW).mpr h3x.2⟩, ⟨?_, ?_⟩, ?_⟩
  · have ht : (r.center.y + (q2.y - r.center.y) / s) / r.orig_height ≤ 1 :=
      (div_le_one hH).mpr h2y.2
    linarith
  · have ht : 0 ≤ (r.center.y + (q2.y - r.center.y) / s) / r.orig_height :=
      div_nonneg h2y.1 (le_of_lt hH)
    linarith
  · have ht : (r.center.y + (q3.y - r.center.y) / s) / r.orig_height ≤ 1 :=
      (div_le_one hH).mpr h3y.2
    linarith
  · have ht : 0 ≤ (r.center.y + (q3.y - r.center.y) / s) / r.orig_height :=
      div_nonneg h3y.1 (le_of_lt hH)
    linarith
  · intro hA hB
    constructor
    · have hq : q2.x < q3.x := by linarith
      have hnum : (q2.x - r.center.x) / s < (q3.x - r.center.x) / s :=
        (div_lt_div_iff_of_pos_right hs0).mpr (by linarith)
      exact (div_lt_div_iff_of_pos_right hW).mpr (by linarith)
    · have hq : q3.y < q2.y := by linarith
      have hnum : (q3.y - r.center.y) / s < (q2.y - r.center.y) / s :=
        (div_lt_div_iff_of_pos_right hs0).mpr (by linarith)
      have hfrac : (r.center.y + (q3.y - r.center.y) / s) / r.orig_height <
          (r.center.y + (q2.y - r.center.y) / s) / r.orig_height :=
        (div_lt_div_iff_of_pos_right hH).mpr (by linarith)
      linarith

/-- Coordinate form of the left output fraction. -/
theorem crop_factors_cropLeft (r : CropRect) :
    r.crop_factors.cropLeft =
      (r.center.x + ((Point.rotate ⟨r.origin.x, r.origin.y + r.height⟩ r.center
          (radians (-1.0 * r.rotation_degrees))).x - r.center.x) /
        r.scale_factor (radians (-1.0 * r.rotation_degrees)) r.orig_width r.orig_height) /
        r.orig_width :=
  rfl

/-- Coordinate form of the right output fraction. -/
theorem crop_factors_cropRight (r : CropRect) :
    r.crop_factors.cropRight =
      (r.center.x + ((Point.rotate ⟨r.origin.x + r.width, r.origin.y⟩ r.center
          (radians (-1.0 * r.rotation_degrees))).x - r.center.x) /
        r.scale_factor (radians (-1.0 * r.rotation_degrees)) r.orig_width r.orig_height) /
        r.orig_width :=
  rfl

/-- C3 counterexample: the claim fails as stated.  A rectangle whose origin
lies outside the image (origin `(-100, 0)`, size `10` by `10`, rotation `0`,
image `100` by `100`) produces a left fraction below the tolerance
`-1/1000000000` (it is `-1`), and the in-bounds
rectangle origin `(25,25)`, size `(50,50)` at rotation `180` produces
left ≥ right. -/
theorem crop_range_counterexample :
    (CropRect.ofJson (-100) 0 10 10 0 100 100).crop_factors.cropLeft <
      -(1 / 1000000000) ∧
    ¬ ((CropRect.ofJson 25 25 50 50 180 100 100).crop_factors.cropLeft <
        (CropRect.ofJson 25 25 50 50 180 100 100).crop_factors.cropRight) := by
  constructor
  · have hθ : radians (-1.0 * (CropRect.ofJson (-100) 0 10 10 0 100 100).rotation_degrees)
        = 0 := by
      norm_num [CropRect.ofJson, radians]
    have hs := one_le_scale_factor (CropRect.ofJson (-100) 0 10 10 0 100 100) 0 100 100
    rw [crop_factors_cropLeft, hθ, Point.rotate_zero]
    have hWH : (CropRect.ofJson (-100) 0 10 10 0 100 100).orig_width = 100 ∧
        (CropRect.ofJson (-100) 0 10 10 0 100 100).orig_height = 100 := by
      norm_num [CropRect.ofJson]
    rw [hWH.1, hWH.2]
    have hcx : (CropRect.ofJson (-100) 0 10 10 0 100 100).center.x = -95 := by
      norm_num [CropRect.center, CropRect.ofJson]
    have hox : (CropRect.ofJson (-100) 0 10 10 0 100 100).origin.x = -100 := by
      norm_num [CropRect.ofJson]
    rw [hcx, hox]
    have hneg : (-100 - (-95) : ℝ) /
        (CropRect.ofJson (-100) 0 10 10 0 100 100).scale_factor 0 100 100 < 0 :=
      div_neg_of_neg_of_pos (by norm_num) (by linarith)
    rw [div_lt_iff₀ (show (0:ℝ) < 100 by norm_num)]
    linarith
  · have hθ : radians (-1.0 * (CropRect.ofJson 25 25 50 50 180 100 100).rotation_degrees)
        = -Real.pi := by
      simp only [CropRect.ofJson]
      unfold radians
      ring
    have hs := one_le_scale_factor (CropRect.ofJson 25 25 50 50 180 100 100)
      (-Real.pi) 100 100
    rw [crop_factors_cropLeft, crop_factors_cropRight, hθ]
    have hWH : (CropRect.ofJson 25 25 50 50 180 100 100).orig_width = 100 ∧
        (CropRect.ofJson 25 25 50 50 180 100 100).orig_height = 100 := by
      norm_num [CropRect.ofJson]
    rw [hWH.1, hWH.2]
    have hcx : (CropRect.ofJson 25 25 50 50 180 100 100).center.x = 50 := by
      norm_num [CropRect.center, CropRect.ofJson]
    have htl : (Point.rotate
        ⟨(CropRect.ofJson 25 25 50 50 180 100 100).origin.x,
          (CropRect.ofJson 25 25 50 50 180 100 100).origin.y +
            (CropRect.ofJson 25 25 50 50 180 100 100).height⟩
        (CropRect.ofJson 25 25 50 50 180 100 100).center (-Real.pi)).x = 75 := by
      simp only [Point.rotate, Real.cos_neg, Real.sin_neg, Real.cos_pi, Real.sin_pi]
      norm_num [CropRect.center, CropRect.ofJson]
    have hbr : (Point.rotate
        ⟨(CropRect.ofJson 25 25 50 50 180 100 100).origin.x +
            (CropRect.ofJson 25 25 50 50 180 100 100).width,
          (CropRect.ofJson 25 25 50 50 180 100 100).origin.y⟩
        (CropRect.ofJson 25 25 50 50 180 100 100).center (-Real.pi)).x = 25 := by
      simp only [Point.rotate, Real.cos_neg, Real.sin_neg, Real.cos_pi, Real.sin_pi]
      norm_num [CropRect.center, CropRect.ofJson]
    rw [htl, hbr, hcx]
    push_neg
    have hs0 : (0:ℝ) <
        (CropRect.ofJson 25 25 50 50 180 100 100).scale_factor (-Real.pi) 100 100 := by
      linarith
    have h1 : (0:ℝ) ≤ (75 - 50 : ℝ) /
        (CropRect.ofJson 25 25 50 50 180 100 100).scale_factor (-Real.pi) 100 100 :=
      div_nonneg (by norm_num) (le_of_lt hs0)
    have h2 : (25 - 50 : ℝ) /
        (CropRect.ofJson 25 25 50 50 180 100 100).scale_factor (-Real.pi) 100 100 ≤ 0 :=
      div_nonpos_of_nonpos_of_nonneg (by norm_num) (le_of_lt hs0)
    apply div_le_div_of_nonneg_right ?_ ?_
    all_goals linarith

/-- Witness for C3's amended statement: the concrete in-bounds rectangle at
rotation `0` satisfies every hypothesis and the resulting fractions are
ordered and inside the unit interval. -/
theorem crop_range_invariant_check :
    (0 ≤ (CropRect.ofJson 25 25 50 50 0 100 100).crop_factors.cropLeft ∧
      (CropRect.ofJson 25 25 50 50 0 100 100).crop_factors.cropLeft ≤ 1) ∧
    (CropRect.ofJson 25 25 50 50 0 100 100).crop_factors.cropLeft <
      (CropRect.ofJson 25 25 50 50 0 100 100).crop_factors.cropRight ∧
    (CropRect.ofJson 25 25 50 50 0 100 100).crop_factors.cropTop <
      (CropRect.ofJson 25 25 50 50 0 100 100).crop_factors.cropBottom := by
  have h := crop_range_invariant (CropRect.ofJson 25 25 50 50 0 100 100)
    (by norm_num [CropRect.ofJson]) (by norm_num [CropRect.ofJson])
    (by norm_num [CropRect.ofJson]) (by norm_num [CropRect.ofJson])
    (by norm_num [CropRect.ofJson]) (by norm_num [CropRect.ofJson])
    (by norm_num [CropRect.ofJson]) (by norm_num [CropRect.ofJson])
  have hord := h.2.2.2.2 (by norm_num [CropRect.ofJson, radians])
    (by norm_num [CropRect.ofJson, radians])
  exact ⟨h.1, hord.1, hord.2⟩

/-- C9: the zero-size sentinel resolves to the full original dimensions, so a
`[[0,0],[0,0]]` rectangle over a 6960 by 4640 image yields exactly the same
crop factors as an explicit `[[0,0],[6960,4640]]` rectangle, for every
rotation angle. -/
theorem sentinel_full_frame_equiv (d : ℝ) :
    (CropRect.ofJson 0 0 0 0 d 6960 4640).crop_factors =
      (CropRect.ofJson 0 0 6960 4640 d 6960 4640).crop_factors := by
  have h : CropRect.ofJson 0 0 0 0 d 6960 4640 = CropRect.ofJson 0 0 6960 4640 d 6960 4640 := by
    unfold CropRect.ofJson
    norm_num
  rw [h]

/-- C10: the sentinel substitution in `CropRect.__init__` is applied per
component: a zero width is replaced by `orig_width` while a nonzero height
stays, and a zero height is replaced by `orig_height` while a nonzero width
stays. -/
theorem sentinel_componentwise (x1 y1 w h d W H : ℝ) :
    (w = 0 → h ≠ 0 →
      (CropRect.ofJson x1 y1 w h d W H).width = W ∧
        (CropRect.ofJson x1 y1 w h d W H).height = h) ∧
    (h = 0 → w ≠ 0 →
      (CropRect.ofJson x1 y1 w h d W H).height = H ∧
        (CropRect.ofJson x1 y1 w h d W H).width = w) := by
  unfold CropRect.ofJson
  constructor
  · intro hw hh
    simp [hw, hh]
  · intro hh hw
    simp [hw, hh]

/-- Witness for C10: concrete sentinel substitutions, one per component. -/
theorem sentinel_componentwise_check :
    (CropRect.ofJson 1 2 0 5 0 100 200).width = 100 ∧
      (CropRect.ofJson 1 2 0 5 0 100 200).height = 5 ∧
      (CropRect.ofJson 1 2 7 0 0 100 200).height = 200 ∧
      (CropRect.ofJson 1 2 7 0 0 100 200).width = 7 := by
  have h1 := (sentinel_componentwise 1 2 0 5 0 100 200).1 rfl (by norm_num)
  have h2 := (sentinel_componentwise 1 2 7 0 0 100 200).2 rfl (by norm_num)
  exact ⟨h1.1, h1.2, h2.1, h2.2⟩

/-- C7: `maybe_rotate_crop` permutes the four fractions exactly when the
orientation flag is `8`, and returns the map unchanged for every other value. -/
theorem maybe_rotate_crop_spec (o : ℤ) (d : CrsCrop) :
    (o = 8 →
      maybe_rotate_crop o d =
        { d with
          cropLeft := 1 - d.cropBottom
          cropTop := d.cropLeft
          cropRight := 1 - d.cropTop
          cropBottom := d.cropRight }) ∧
    (o ≠ 8 → maybe_rotate_crop o d = d) := by
  unfold maybe_rotate_crop
  constructor
  · intro ho
    simp [ho]
    norm_num
  · intro ho
    simp [ho]

/-- Witness for C7: one permuted and one untouched concrete orientation. -/
theorem maybe_rotate_crop_spec_check :
    maybe_rotate_crop 8 ⟨0.1, 0.2, 0.9, 0.8, 0, 0, 1, true⟩ =
        ⟨1 - 0.8, 0.1, 1 - 0.2, 0.9, 0, 0, 1, true⟩ ∧
      maybe_rotate_crop 1 ⟨0.1, 0.2, 0.9, 0.8, 0, 0, 1, true⟩ =
        ⟨0.1, 0.2, 0.9, 0.8, 0, 0, 1, true⟩ := by
  constructor
  · exact (maybe_rotate_crop_spec 8 ⟨0.1, 0.2, 0.9, 0.8, 0, 0, 1, true⟩).1 rfl
  · exact (maybe_rotate_crop_spec 1 ⟨0.1, 0.2, 0.9, 0.8, 0, 0, 1, true⟩).2 (by norm_num)

end NitroCRS
